import Mathlib

/-!
Shallow embedding of the transaction-lifecycle core of the repository
(`backend/app/adapters/web3/web3_client_impl.py`,
`backend/app/core/ports/web3_client.py`, `backend/app/core/domain/base.py`)
together with proofs settling the frozen claims about it.

Python exceptions are modelled by `Except PyError`; chain RPC outcomes are
supplied as explicit oracle arguments (a raised exception from the node or
library is an `Except.error`, a normal return an `Except.ok`).  Machine
integers are `Nat`/`Int` (Python integers are unbounded, so no wrap-around
modelling is needed); `decimal.Decimal` and IEEE-754 `float` values are
modelled as the exact rationals they denote, with the context/format
rounding made explicit (`roundSigQ`).
-/

deriving instance DecidableEq for Except

namespace Web3Model

/-- String literal constants (messages from the source). -/
def hexPrefix : String := "0x"

def msgNotConnected : String := "Not connected to any network"

def msgInvalidTxHash : String := "Invalid transaction hash format"

def msgInvalidContractAddr : String := "Invalid contract address format"

def msgInvalidWalletAddr : String := "Invalid wallet address format"

def msgInvalidAddrPrefix : String := "Invalid address format: "

def msgAmountNegative : String := "Amount cannot be negative"

def msgNoneTypeEth : String := "'NoneType' object has no attribute 'eth'"

def msgAbiNotFound : String := "ABI file not found: "

def msgTxFailedPrefix : String := "Transaction failed: "

def msgMintFailedPrefix : String := "Failed to mint NFT: "

def msgTimedOutA : String := "Transaction "

def msgTimedOutB : String := " timed out"

/--
The exception taxonomy that actually exists in the source
(`web3_client_impl.py` defines `Web3ClientError`, `NetworkNotConnectedError`,
`TransactionFailedError`, `ContractInteractionError`; value objects raise
`ValueError`; Python itself contributes `KeyError` / `AttributeError`; node
and library failures are arbitrary exceptions, modelled by `rpc`).
-/
inductive PyError where
  | valueError (msg : String)
  | keyError (msg : String)
  | attributeError (msg : String)
  | web3Client (msg : String)
  | notConnected (msg : String)
  | transactionFailed (msg : String)
  | contractInteraction (msg : String)
  | rpc (msg : String)
deriving DecidableEq, Repr

/-- Python `str(e)` on an exception: its message. -/
def PyError.msg : PyError → String
  | .valueError m => m
  | .keyError m => m
  | .attributeError m => m
  | .web3Client m => m
  | .notConnected m => m
  | .transactionFailed m => m
  | .contractInteraction m => m
  | .rpc m => m

/-- The exception *class* of a `PyError`, forgetting the message. -/
inductive PyErrorKind where
  | valueError
  | keyError
  | attributeError
  | web3Client
  | notConnected
  | transactionFailed
  | contractInteraction
  | rpc
deriving DecidableEq, Repr

def PyError.kind : PyError → PyErrorKind
  | .valueError _ => .valueError
  | .keyError _ => .keyError
  | .attributeError _ => .attributeError
  | .web3Client _ => .web3Client
  | .notConnected _ => .notConnected
  | .transactionFailed _ => .transactionFailed
  | .contractInteraction _ => .contractInteraction
  | .rpc _ => .rpc

/-! ## Python string primitives

Modelled over the character list of a `String` so that they evaluate by
kernel reduction (Python `str` is a sequence of characters). -/

/-- Python `s.startswith('0x')`. -/
def startsWith0x (s : String) : Bool :=
  match s.data with
  | '0' :: 'x' :: _ => true
  | _ => false

/-- Python `len(s)` (number of characters). -/
def strLen (s : String) : ℕ := s.data.length

/-- Python `s.lower()` (ASCII case folding suffices for the data at hand). -/
def strLower (s : String) : String := ⟨s.data.map Char.toLower⟩

/-! ## Value objects (`core/ports/web3_client.py`, `core/domain/base.py`) -/

/-- Model of the `TransactionHash` dataclass: a wrapped string. -/
structure TransactionHash where
  value : String
deriving DecidableEq, Repr

/-- Constructor with `TransactionHash.__post_init__` validation: accepts iff the string starts with
`0x` and has length 66; otherwise raises
`ValueError("Invalid transaction hash format")`. -/
def mkTransactionHash (s : String) : Except PyError TransactionHash :=
  if startsWith0x s ∧ strLen s = 66 then .ok ⟨s⟩
  else .error (.valueError msgInvalidTxHash)

/-- Model of the `ContractAddress` dataclass. -/
structure ContractAddress where
  value : String
deriving DecidableEq, Repr

/-- Constructor with `ContractAddress.__post_init__` validation: accepts iff the string starts with
`0x` and has length 42. -/
def mkContractAddress (s : String) : Except PyError ContractAddress :=
  if startsWith0x s ∧ strLen s = 42 then .ok ⟨s⟩
  else .error (.valueError msgInvalidContractAddr)

/-- Model of `ContractAddress.__str__`: returns the stored value unchanged. -/
def ContractAddress.toText (c : ContractAddress) : String := c.value

/-- Model of the `WalletAddress` dataclass. -/
structure WalletAddress where
  value : String
deriving DecidableEq, Repr

/-- Constructor with `WalletAddress.__post_init__` validation: accepts iff the string starts with
`0x` and has length 42. -/
def mkWalletAddress (s : String) : Except PyError WalletAddress :=
  if startsWith0x s ∧ strLen s = 42 then .ok ⟨s⟩
  else .error (.valueError msgInvalidWalletAddr)

/-- Model of `WalletAddress.__str__`: lower-cases only the *printed* form; the stored
`value` field is untouched. -/
def WalletAddress.toText (w : WalletAddress) : String := strLower w.value

/-- Model of the `Address` dataclass from `core/domain/base.py`. -/
structure Address where
  value : String
deriving DecidableEq, Repr

/-- Constructor with `Address.__post_init__` validation: accepts iff the string starts with `0x` and has
length 42 (`ValueError(f"Invalid address format: {value}")` otherwise). -/
def mkAddress (s : String) : Except PyError Address :=
  if startsWith0x s ∧ strLen s = 42 then .ok ⟨s⟩
  else .error (.valueError (msgInvalidAddrPrefix ++ s))

/-- Model of `Address.__str__`: lower-cases the printed form only. -/
def Address.toText (a : Address) : String := strLower a.value

/-- A hex character in the sense of the spec (`0-9a-fA-F`). -/
def isHexChar (c : Char) : Bool :=
  (decide ('0' ≤ c) && decide (c ≤ '9')) ||
  (decide ('a' ≤ c) && decide (c ≤ 'f')) ||
  (decide ('A' ≤ c) && decide (c ≤ 'F'))

/-- The spec's well-formedness predicate for an `0x`-prefixed hex string of
total length `n`: used to express what validation *should* reject. -/
def specHexString (n : ℕ) (s : String) : Bool :=
  startsWith0x s && strLen s == n && (s.data.drop 2).all isHexChar

/-- Model of the `Amount` dataclass from `core/domain/base.py`. -/
structure Amount where
  value : ℤ
  decimals : ℕ
deriving DecidableEq, Repr

/-- Constructor with `Amount.__post_init__` validation: raises `ValueError` iff `value < 0`. -/
def mkAmount (v : ℤ) (d : ℕ) : Except PyError Amount :=
  if v < 0 then .error (.valueError msgAmountNegative) else .ok ⟨v, d⟩

/-! ## Exact models of `decimal.Decimal` and IEEE-754 binary64 rounding

Python's `decimal` module computes, for each arithmetic operation, the
mathematically exact result rounded to the context precision (default: 28
significant decimal digits, `ROUND_HALF_EVEN`).  CPython's `int / int` true
division returns the exact quotient correctly rounded to IEEE-754 binary64
(53 significant bits, ties to even).  Both are instances of "round a
rational to `p` significant base-`b` digits", made explicit below.
(Overflow and subnormal ranges of binary64 never arise for the values
considered and are not modelled.) -/

/-- Number of base-`b` digits of `n` (with `0` digits for `n = 0`), computed
with structural fuel; `nlen` supplies fuel 400, enough for every `n < b ^ 400`. -/
def nlenAux (b : ℕ) : ℕ → ℕ → ℕ
  | 0, _ => 0
  | f + 1, n => if n = 0 then 0 else nlenAux b f (n / b) + 1

def nlen (b n : ℕ) : ℕ := nlenAux b 400 n

/-- Round `a / d` half-to-even to an integer (`d > 0` in every use). -/
def rdiv (a d : ℕ) : ℕ :=
  let q := a / d
  let r := a % d
  if 2 * r < d then q
  else if d < 2 * r then q + 1
  else if q % 2 = 0 then q else q + 1

/-- Floor of `log_b (a / d)` for `1 ≤ a`, `1 ≤ d`, `2 ≤ b`. -/
def floorLogQ (b a d : ℕ) : ℤ :=
  let c : ℤ := (nlen b a : ℤ) - (nlen b d : ℤ)
  if 0 ≤ c then (if d * b ^ c.toNat ≤ a then c else c - 1)
  else (if d ≤ a * b ^ (-c).toNat then c else c - 1)

/-- Round a rational to `p` significant base-`b` digits, ties to even: the
common core of `decimal.Decimal` context rounding (`b = 10`, `p = 28`) and
IEEE-754 binary64 rounding (`b = 2`, `p = 53`).  With `e` the floor
logarithm of `|q|`, the rounded significand is
`m = rdiv (|q| * b ^ (p - 1 - e))` and the result is `±m * b ^ (e + 1 - p)`,
written with `Rat.divInt` so that the whole function evaluates by kernel
reduction. -/
def roundSigQ (b p : ℕ) (q : ℚ) : ℚ :=
  if q = 0 then 0
  else
    let a := q.num.natAbs
    let d := q.den
    let e := floorLogQ b a d
    let sh : ℤ := (p : ℤ) - 1 - e
    let m : ℕ := if 0 ≤ sh then rdiv (a * b ^ sh.toNat) d else rdiv a (d * b ^ (-sh).toNat)
    let sg : ℤ := if q.num < 0 then -1 else 1
    if 0 ≤ sh then Rat.divInt (sg * m) ((b ^ sh.toNat : ℕ) : ℤ)
    else Rat.divInt (sg * m * ((b ^ (-sh).toNat : ℕ) : ℤ)) 1

/-- Truncation toward zero: Python `int(...)` applied to an exact value. -/
def ratTrunc (q : ℚ) : ℤ := q.num.sign * ((q.num.natAbs / q.den : ℕ) : ℤ)

/-- Model of `wei_to_ether` (`web3_client_impl.py`):
`Decimal(wei_amount) / Decimal(10**18)` under the default decimal context
(28 significant digits, round half even).  The two constructor calls are
exact; the division is the exact quotient (`Rat.divInt w 10^18`, the
rational `w / 10^18`) rounded to context precision. -/
def wei_to_ether (w : ℕ) : ℚ := roundSigQ 10 28 (Rat.divInt w ((10 ^ 18 : ℕ) : ℤ))

/-- Model of `ether_to_wei` (`web3_client_impl.py`):
`int(ether_amount * Decimal(10**18))` — the exact product `e * 10^18`
(written on the numerator: `divInt (e.num * 10^18) e.den`) is rounded to
context precision, then truncated toward zero by `int`. -/
def ether_to_wei (e : ℚ) : ℤ :=
  ratTrunc (roundSigQ 10 28 (Rat.divInt (e.num * ((10 ^ 18 : ℕ) : ℤ)) (e.den : ℤ)))

/-- Model of CPython `int / int` true division: the exact quotient
`Rat.divInt n d` correctly rounded to IEEE-754 binary64 (53 significant
bits, ties to even). -/
def pyFloatDiv (n : ℤ) (d : ℕ) : ℚ := roundSigQ 2 53 (Rat.divInt n (d : ℤ))

/-- Model of the `Amount.normalized` property (`core/domain/base.py`):
`self.value / (10 ** self.decimals)` — binary floating-point division of
Python integers. -/
def Amount.normalized (a : Amount) : ℚ := pyFloatDiv a.value (10 ^ a.decimals)

/-! ## Client model (`web3_client_impl.py`)

The `Web3ClientImpl` object state is the triple of its mutable fields that
the claims speak about (`self.w3`, `self.network`, `self.chain_id`); the
`w3` provider object itself is opaque (`Unit`).  Chain RPC results and
other environment effects (file system, key parsing, signing) enter as
explicit oracle arguments of each operation. -/

/-- Supported networks (`NetworkType` in `core/ports/web3_client.py`). -/
inductive NetworkType where
  | mainnet
  | sepolia
  | polygon
  | mumbai
  | localhost
deriving DecidableEq, Repr

/-- Transaction status values used by the adapter. -/
inductive TransactionStatus where
  | pending
  | confirmed
  | failed
  | dropped
deriving DecidableEq, Repr

/-- One entry of the `self.network_configs` dictionary. -/
structure NetworkConfig where
  rpcUrl : String
  chainId : ℕ
  name : String
deriving DecidableEq, Repr

def urlMainnet : String := "https://eth-mainnet.g.alchemy.com/v2/"

def urlSepolia : String := "https://eth-sepolia.g.alchemy.com/v2/"

def urlPolygon : String := "https://polygon-rpc.com/"

def urlMumbai : String := "https://rpc-mumbai.maticvigil.com/"

def urlLocalhost : String := "http://localhost:8545"

def nameMainnet : String := "Ethereum Mainnet"

def nameSepolia : String := "Sepolia Testnet"

def namePolygon : String := "Polygon Mainnet"

def nameMumbai : String := "Mumbai Testnet"

def nameLocalhost : String := "Local Development"

/-- The `network_configs` dictionary (the Alchemy API key is interpolated
into the mainnet/sepolia URLs from settings). -/
def network_configs (apiKey : String) : NetworkType → NetworkConfig
  | .mainnet => ⟨urlMainnet ++ apiKey, 1, nameMainnet⟩
  | .sepolia => ⟨urlSepolia ++ apiKey, 11155111, nameSepolia⟩
  | .polygon => ⟨urlPolygon, 137, namePolygon⟩
  | .mumbai => ⟨urlMumbai, 80001, nameMumbai⟩
  | .localhost => ⟨urlLocalhost, 31337, nameLocalhost⟩

/-- The mutable fields of `Web3ClientImpl` relevant to the claims. -/
structure ClientState where
  w3 : Option Unit
  network : Option NetworkType
  chainId : Option ℕ
deriving DecidableEq, Repr

/-- State right after `__init__`: no provider, no network, no chain id. -/
def newClientState : ClientState := ⟨none, none, none⟩

/-- Model of `is_connected`: `False` when `self.w3` is unset, otherwise the
result of the liveness probe `self.w3.is_connected()` (oracle `probe`). -/
def is_connected (st : ClientState) (probe : Bool) : Bool :=
  match st.w3 with
  | none => false
  | some _ => probe

/-- Model of `connect`.  `net = none` stands for a network name absent from
`network_configs` (the `KeyError` is swallowed by the catch-all `except`);
`probe` is the outcome of the `self.w3.is_connected()` test (also `false`
when constructing the provider raised).  The catch-all `except` turns every
failure into the return value `False`, so the function is total; the PoA
middleware injection for sepolia/mumbai/localhost does not touch the three
modelled fields.  Note that `self.w3` is assigned *before* the liveness
test, so it is clobbered even on a failed connect, while `self.network`
and `self.chain_id` are assigned only after the test succeeds. -/
def connect (st : ClientState) (apiKey : String) (net : Option NetworkType)
    (probe : Bool) : Bool × ClientState :=
  match net with
  | none => (false, st)
  | some n =>
    let cfg := network_configs apiKey n
    let st1 : ClientState := { st with w3 := some () }
    if probe then (true, { st1 with network := some n, chainId := some cfg.chainId })
    else (false, st1)

def msgNoneTypeValue : String := "'NoneType' object has no attribute 'value'"

/-- Result dictionary of `get_network_info`. -/
structure NetworkInfoRes where
  network : NetworkType
  chainId : Option ℕ
  latestBlock : ℕ
  blockTime : ℕ
  gasPrice : ℕ
deriving DecidableEq, Repr

/-- Model of `get_network_info`: fails fast with `NetworkNotConnectedError`
when not connected; otherwise reads the latest block (oracle `blockR`,
number and timestamp), takes `self.network.value` / `self.chain_id`, and
reads the gas price (oracle `gasPriceR`). -/
def get_network_info (st : ClientState) (probe : Bool)
    (blockR : Except PyError (ℕ × ℕ)) (gasPriceR : Except PyError ℕ) :
    Except PyError NetworkInfoRes :=
  if ¬ is_connected st probe then .error (.notConnected msgNotConnected)
  else do
    let b ← blockR
    match st.network with
    | none => Except.error (PyError.attributeError msgNoneTypeValue)
    | some n => do
      let g ← gasPriceR
      Except.ok ⟨n, st.chainId, b.1, b.2, g⟩

/-- Model of `get_balance`: guard, then `eth.get_balance` (oracle, in wei),
then `wei_to_ether`. -/
def get_balance (st : ClientState) (probe : Bool) (balR : Except PyError ℕ) :
    Except PyError ℚ :=
  if ¬ is_connected st probe then .error (.notConnected msgNotConnected)
  else do
    let b ← balR
    Except.ok (wei_to_ether b)

def abiSuffix : String := ".json"

def erc20Name : String := "ERC20"

def artNftName : String := "ArtNFT"

/-- Model of `_load_contract_abi`: raises `Web3ClientError` when the ABI
file is missing (oracle `present`), otherwise succeeds (the parsed ABI
itself plays no further role in the claims). -/
def loadContractAbi (present : Bool) (nm : String) : Except PyError Unit :=
  if present then .ok () else .error (.web3Client (msgAbiNotFound ++ nm ++ abiSuffix))

/-- Model of `get_token_balance`.  Unlike every other chain-facing
operation, the source performs *no* `is_connected` guard here: it loads the
ERC20 ABI and then dereferences `self.w3.eth`, which on a never-connected
client (`w3 = None`) raises `AttributeError`.  On the happy path it returns
`Decimal(balance) / Decimal(10 ** decimals)` (context-rounded). -/
def get_token_balance (st : ClientState) (abiPresent : Bool)
    (balR : Except PyError ℕ) (decR : Except PyError ℕ) : Except PyError ℚ := do
  let _ ← loadContractAbi abiPresent erc20Name
  match st.w3 with
  | none => Except.error (PyError.attributeError msgNoneTypeEth)
  | some _ => do
    let bal ← balR
    let dec ← decR
    Except.ok (roundSigQ 10 28 (Rat.divInt bal ((10 ^ dec : ℕ) : ℤ)))

/-- Result of `estimate_gas` (`GasEstimate` dataclass). -/
structure GasEstimate where
  gas_limit : ℕ
  gas_price : ℕ
  estimated_cost : ℚ
deriving DecidableEq, Repr

/-- Model of `estimate_gas`: guard, then gas simulation and gas price
(oracles), with `estimated_cost = wei_to_ether (gas_limit * gas_price)`. -/
def estimate_gas (st : ClientState) (probe : Bool)
    (gasR : Except PyError ℕ) (gasPriceR : Except PyError ℕ) :
    Except PyError GasEstimate :=
  if ¬ is_connected st probe then .error (.notConnected msgNotConnected)
  else do
    let l ← gasR
    let p ← gasPriceR
    Except.ok ⟨l, p, wei_to_ether (l * p)⟩

/-- The transaction dictionary assembled by `send_transaction`. -/
structure TxParams where
  toAddr : String
  value : ℤ
  gas : ℕ
  gasPrice : ℕ
  nonce : ℕ
  chainId : Option ℕ
deriving DecidableEq, Repr

/-- Model of `send_transaction`: guard, then inside one `try`: nonce lookup
(oracle), gas-price lookup when the caller supplied none, `ether_to_wei`
on the value, dictionary assembly (`gas_limit or 21000` is Python
truthiness: `None` *and* `0` both fall back to 21000), signing and
broadcast (oracles), and `TransactionHash` construction on the returned
hex.  Every exception `e` in the block — node rejection at broadcast
included — is re-raised as `TransactionFailedError(f"Transaction failed:
{str(e)}")`. -/
def send_transaction (st : ClientState) (probe : Bool)
    (toAddress : WalletAddress) (value : ℚ)
    (gasLimit : Option ℕ) (gasPrice : Option ℕ)
    (nonceR : Except PyError ℕ) (gasPriceR : Except PyError ℕ)
    (signR : TxParams → Except PyError String)
    (broadcastR : String → Except PyError String) :
    Except PyError TransactionHash :=
  if ¬ is_connected st probe then .error (.notConnected msgNotConnected)
  else
    let body : Except PyError TransactionHash := do
      let nonce ← nonceR
      let gp ← match gasPrice with
        | some g => Except.ok g
        | none => gasPriceR
      let valueWei := ether_to_wei value
      let gas : ℕ := match gasLimit with
        | some g => if g = 0 then 21000 else g
        | none => 21000
      let tx : TxParams := ⟨toAddress.value, valueWei, gas, gp, nonce, st.chainId⟩
      let raw ← signR tx
      let h ← broadcastR raw
      mkTransactionHash h
    match body with
    | .ok v => .ok v
    | .error e => .error (.transactionFailed (msgTxFailedPrefix ++ e.msg))

def emptyStr : String := ""

/-- Raw receipt as returned by `eth.get_transaction_receipt`: on-chain
status integer, block number, gas used, optional created-contract address
string, and the emitted log entries (each a dict, modelled as an
association list). -/
structure RawReceipt where
  status : ℕ
  blockNumber : ℕ
  gasUsed : ℕ
  contractAddress : Option String
  logs : List (List (String × String))
deriving DecidableEq, Repr

/-- Model of the `TransactionReceipt` dataclass. -/
structure TransactionReceipt where
  transaction_hash : TransactionHash
  block_number : ℕ
  gas_used : ℕ
  status : TransactionStatus
  contract_address : Option ContractAddress
  logs : List (List (String × String))
deriving DecidableEq, Repr

/-- Body of the `try` block of `get_transaction_receipt`: status is
`CONFIRMED` exactly when the raw status equals 1 and `FAILED` otherwise;
the contract address is wrapped in `ContractAddress` when truthy (its
validation `ValueError` stays inside the `try`), and the logs are copied. -/
def buildReceipt (tx : TransactionHash) (raw : RawReceipt) :
    Except PyError TransactionReceipt := do
  let ca ← match raw.contractAddress with
    | some s =>
      if s = emptyStr then Except.ok (none : Option ContractAddress)
      else (mkContractAddress s).map some
    | none => Except.ok (none : Option ContractAddress)
  Except.ok ⟨tx, raw.blockNumber, raw.gasUsed,
    (if raw.status = 1 then .confirmed else .failed), ca, raw.logs⟩

/-- Model of `get_transaction_receipt`: guard, then one `try` around the
node lookup (oracle `lookup`) and the receipt construction; *any*
exception in the block yields the regular return value `None`. -/
def get_transaction_receipt (st : ClientState) (probe : Bool)
    (tx : TransactionHash) (lookup : Except PyError RawReceipt) :
    Except PyError (Option TransactionReceipt) :=
  if ¬ is_connected st probe then .error (.notConnected msgNotConnected)
  else .ok (match lookup.bind (buildReceipt tx) with
    | .ok r => some r
    | .error _ => none)

/-- Polling loop of `wait_for_transaction`, from iteration `k` on.  `poll k`
is what the `k`-th call of `get_transaction_receipt` returns (`none` both
when no receipt exists yet and when the lookup raised, since every
exception there becomes `None`; the client is assumed to stay connected,
as a raised `NetworkNotConnectedError` would abort the loop).  Polls are
instantaneous and each sleep lasts 2 seconds, so elapsed time at iteration
`k` is `2 * k`; the timeout test `elapsed > timeout` runs after a failed
poll, exactly as in the source.  The second component instruments the
model with the number of polls performed (it is no part of the source's
return value). -/
def waitLoop (poll : ℕ → Option TransactionReceipt) (txStr : String)
    (timeout : ℕ) (k : ℕ) : Except PyError TransactionReceipt × ℕ :=
  match poll k with
  | some r => (.ok r, k + 1)
  | none =>
    if h : timeout < 2 * k then
      (.error (.transactionFailed (msgTimedOutA ++ txStr ++ msgTimedOutB)), k + 1)
    else waitLoop poll txStr timeout (k + 1)
termination_by timeout + 1 - 2 * k
decreasing_by omega

/-- Model of `wait_for_transaction` (default `timeout = 300`): poll, return
the receipt as soon as one is observed, raise `TransactionFailedError`
(f"Transaction {tx_hash} timed out") once elapsed time exceeds `timeout`,
sleeping 2 seconds between polls.  First component: the result; second:
the number of polls (instrumentation). -/
def wait_for_transaction (poll : ℕ → Option TransactionReceipt) (txStr : String)
    (timeout : ℕ) : Except PyError TransactionReceipt × ℕ :=
  waitLoop poll txStr timeout 0

/-- Model of `mint_nft`.  Inside one `try`: ABI load, contract handle
(dereferences `self.w3.eth`: `AttributeError` when never connected), key
parsing, `mintingFee()` call, nonce lookup, gas price (inside
`build_transaction`), signing, broadcast (oracles in source order), then
`wait_for_transaction` on the returned hash with the default timeout, and
then — the receipt just obtained is ignored — the hard-coded
`token_id = 1` (source comment: "This would be extracted from the event
logs") is returned with a fresh `TransactionHash` of the same hex.  Every
exception is re-raised as `ContractInteractionError("Failed to mint NFT:
...")`. -/
def mint_nft (st : ClientState) (abiPresent : Bool)
    (keyR : Except PyError Unit)
    (feeR : Except PyError ℕ) (nonceR : Except PyError ℕ)
    (gasPriceR : Except PyError ℕ)
    (signR : Except PyError String) (broadcastR : Except PyError String)
    (poll : ℕ → Option TransactionReceipt) :
    Except PyError (ℕ × TransactionHash) :=
  let body : Except PyError (ℕ × TransactionHash) := do
    let _ ← loadContractAbi abiPresent artNftName
    let _ ← match st.w3 with
      | none => Except.error (PyError.attributeError msgNoneTypeEth)
      | some u => Except.ok u
    let _ ← keyR
    let _fee ← feeR
    let _nonce ← nonceR
    let _gp ← gasPriceR
    let _raw ← signR
    let txh ← broadcastR
    let h1 ← mkTransactionHash txh
    let _receipt ← (wait_for_transaction poll h1.value 300).1
    let tokenId : ℕ := 1
    let h2 ← mkTransactionHash txh
    Except.ok (tokenId, h2)
  match body with
  | .ok v => .ok v
  | .error e => .error (.contractInteraction (msgMintFailedPrefix ++ e.msg))


/-! ## Supporting lemmas -/

theorem nlenAux_zero (b f : ℕ) : nlenAux b f 0 = 0 := by
  cases f <;> simp [nlenAux]

theorem nlenAux_bounds (b : ℕ) (hb : 2 ≤ b) :
    ∀ f n, n < b ^ f → 0 < n →
      b ^ (nlenAux b f n - 1) ≤ n ∧ n < b ^ nlenAux b f n := by
  intro f
  induction f with
  | zero => intro n hn hpos; simp at hn; omega
  | succ f ih =>
    intro n hn hpos
    have hb0 : 0 < b := by omega
    rw [nlenAux]
    simp only [Nat.pos_iff_ne_zero.mp hpos, if_neg (Nat.pos_iff_ne_zero.mp hpos)]
    by_cases hq : n / b = 0
    · have hnb : n < b := by
        rcases Nat.div_eq_zero_iff hb0 |>.mp hq with h
        exact h
      rw [hq, nlenAux_zero]
      constructor
      · simpa using hpos
      · simpa using hnb
    · have hqpos : 0 < n / b := Nat.pos_of_ne_zero hq
      have hqlt : n / b < b ^ f := by
        apply Nat.div_lt_of_lt_mul
        rw [← pow_succ']
        exact hn
      obtain ⟨h1, h2⟩ := ih (n / b) hqlt hqpos
      set L := nlenAux b f (n / b) with hL
      have hL1 : 1 ≤ L := by
        by_contra hc
        push_neg at hc
        interval_cases L
        simp at h2
        omega
      constructor
      · have : b ^ L ≤ n := by
          calc b ^ L = b * b ^ (L - 1) := by
                rw [← pow_succ']
                congr 1
                omega
          _ ≤ b * (n / b) := by exact Nat.mul_le_mul_left b h1
          _ ≤ n := Nat.mul_div_le n b
        simpa using this
      · have hmod : n < b * (n / b) + b := by
          have := Nat.div_add_mod n b
          have := Nat.mod_lt n hb0
          omega
        calc n < b * (n / b) + b := hmod
        _ ≤ b * (b ^ L - 1) + b := by
            have : n / b ≤ b ^ L - 1 := by omega
            exact Nat.add_le_add_right (Nat.mul_le_mul_left b this) b
        _ ≤ b ^ (L + 1) := by
            obtain ⟨t, ht⟩ : ∃ t, b ^ L = t + 1 :=
              ⟨b ^ L - 1, by have := Nat.one_le_pow L b hb0; omega⟩
            have hmul : b * (b ^ L - 1) + b = b * b ^ L := by
              rw [ht]
              simp [Nat.mul_succ]
            rw [hmul, ← pow_succ']

theorem nlen_bounds (b n : ℕ) (hb : 2 ≤ b) (hfuel : n < b ^ 400) (hpos : 0 < n) :
    b ^ (nlen b n - 1) ≤ n ∧ n < b ^ nlen b n :=
  nlenAux_bounds b hb 400 n hfuel hpos

theorem nlen_pos (b n : ℕ) (hb : 2 ≤ b) (hfuel : n < b ^ 400) (hpos : 0 < n) :
    1 ≤ nlen b n := by
  obtain ⟨h1, h2⟩ := nlen_bounds b n hb hfuel hpos
  by_contra hc
  push_neg at hc
  interval_cases h : nlen b n
  simp at h2
  omega

theorem rdiv_of_dvd (a d : ℕ) (hd : 0 < d) (h : d ∣ a) : rdiv a d = a / d := by
  have hmod : a % d = 0 := Nat.mod_eq_zero_of_dvd h
  rw [rdiv]
  simp [hmod, hd]

theorem castPowQ (b n : ℕ) : ((b ^ n : ℕ) : ℚ) = (b : ℚ) ^ (n : ℤ) := by
  push_cast
  rw [zpow_natCast]

theorem zpow_le_divQ_of_nonneg (b a d : ℕ) (hb : 2 ≤ b) (hd : 0 < d) (z : ℤ)
    (hz : 0 ≤ z) : ((b : ℚ) ^ z ≤ (a : ℚ) / (d : ℚ)) ↔ d * b ^ z.toNat ≤ a := by
  have hdq : (0 : ℚ) < (d : ℚ) := by exact_mod_cast hd
  rw [le_div_iff₀ hdq]
  have hcast : (b : ℚ) ^ z = ((b ^ z.toNat : ℕ) : ℚ) := by
    rw [castPowQ, Int.toNat_of_nonneg hz]
  rw [hcast]
  rw [show ((b ^ z.toNat : ℕ) : ℚ) * (d : ℚ) = ((d * b ^ z.toNat : ℕ) : ℚ) by push_cast; ring]
  exact Nat.cast_le

theorem zpow_le_divQ_of_neg (b a d : ℕ) (hb : 2 ≤ b) (ha : 0 < a) (hd : 0 < d)
    (z : ℤ) (hz : z < 0) :
    ((b : ℚ) ^ z ≤ (a : ℚ) / (d : ℚ)) ↔ d ≤ a * b ^ (-z).toNat := by
  have hdq : (0 : ℚ) < (d : ℚ) := by exact_mod_cast hd
  have hBq : (0 : ℚ) < ((b ^ (-z).toNat : ℕ) : ℚ) := by
    have : 0 < b ^ (-z).toNat := Nat.pos_pow_of_pos _ (by omega)
    exact_mod_cast this
  have hcast : (b : ℚ) ^ z = 1 / ((b ^ (-z).toNat : ℕ) : ℚ) := by
    rw [castPowQ, Int.toNat_of_nonneg (by omega : (0 : ℤ) ≤ -z)]
    rw [one_div, ← zpow_neg, neg_neg]
  rw [hcast, div_le_div_iff₀ hBq hdq, one_mul]
  rw [show (a : ℚ) * ((b ^ (-z).toNat : ℕ) : ℚ) = ((a * b ^ (-z).toNat : ℕ) : ℚ) by push_cast; ring]
  exact Nat.cast_le

theorem floorLogQ_correct (b a d : ℕ) (hb : 2 ≤ b) (ha : 0 < a) (hd : 0 < d)
    (hfa : a < b ^ 400) (hfd : d < b ^ 400) :
    (b : ℚ) ^ floorLogQ b a d ≤ (a : ℚ) / (d : ℚ) ∧
      (a : ℚ) / (d : ℚ) < (b : ℚ) ^ (floorLogQ b a d + 1) := by
  have hbq1 : (1 : ℚ) < (b : ℚ) := by exact_mod_cast hb
  have hbq0 : (0 : ℚ) < (b : ℚ) := by positivity
  have haq : (0 : ℚ) < (a : ℚ) := by exact_mod_cast ha
  have hdq : (0 : ℚ) < (d : ℚ) := by exact_mod_cast hd
  obtain ⟨ha1, ha2⟩ := nlen_bounds b a hb hfa ha
  obtain ⟨hd1, hd2⟩ := nlen_bounds b d hb hfd hd
  have hLa1 : 1 ≤ nlen b a := nlen_pos b a hb hfa ha
  have hLd1 : 1 ≤ nlen b d := nlen_pos b d hb hfd hd
  set La := nlen b a with hLa
  set Ld := nlen b d with hLd
  -- the value q = a / d in rationals
  set q : ℚ := (a : ℚ) / (d : ℚ) with hq
  have hq0 : 0 < q := by positivity
  -- global sandwich: b ^ (La - Ld - 1) < q < b ^ (La - Ld + 1)
  have hlow : (b : ℚ) ^ ((La : ℤ) - Ld - 1) < q := by
    have step1 : ((b ^ (La - 1) : ℕ) : ℚ) / ((b ^ Ld : ℕ) : ℚ) ≤ (a : ℚ) / ((b ^ Ld : ℕ) : ℚ) := by
      gcongr
    have step2 : (a : ℚ) / ((b ^ Ld : ℕ) : ℚ) < (a : ℚ) / (d : ℚ) := by
      apply div_lt_div_of_pos_left haq hdq
      exact_mod_cast hd2
    have hpow : ((b ^ (La - 1) : ℕ) : ℚ) / ((b ^ Ld : ℕ) : ℚ) = (b : ℚ) ^ ((La : ℤ) - Ld - 1) := by
      rw [castPowQ, castPowQ, ← zpow_sub₀ (ne_of_gt hbq0)]
      congr 1
      omega
    rw [hpow] at step1
    exact lt_of_le_of_lt step1 step2
  have hhigh : q < (b : ℚ) ^ ((La : ℤ) - Ld + 1) := by
    have step1 : (a : ℚ) / (d : ℚ) < ((b ^ La : ℕ) : ℚ) / (d : ℚ) := by
      gcongr
    have step2 : ((b ^ La : ℕ) : ℚ) / (d : ℚ) ≤ ((b ^ La : ℕ) : ℚ) / ((b ^ (Ld - 1) : ℕ) : ℚ) := by
      gcongr
    have hpow : ((b ^ La : ℕ) : ℚ) / ((b ^ (Ld - 1) : ℕ) : ℚ) = (b : ℚ) ^ ((La : ℤ) - Ld + 1) := by
      rw [castPowQ, castPowQ, ← zpow_sub₀ (ne_of_gt hbq0)]
      congr 1
      omega
    rw [hpow] at step2
    exact lt_of_lt_of_le step1 step2
  -- now split along the branches of floorLogQ
  rw [floorLogQ]
  set c : ℤ := (La : ℤ) - (Ld : ℤ) with hc
  by_cases hc0 : 0 ≤ c
  · rw [if_pos hc0]
    by_cases ht : d * b ^ c.toNat ≤ a
    · rw [if_pos ht]
      refine ⟨?_, ?_⟩
      · exact (zpow_le_divQ_of_nonneg b a d hb hd c hc0).mpr ht
      · simpa [hc] using hhigh
    · rw [if_neg ht]
      refine ⟨?_, ?_⟩
      · have : (b : ℚ) ^ (c - 1) < q := by simpa [hc] using hlow
        exact le_of_lt this
      · have : ¬ ((b : ℚ) ^ c ≤ q) := by
          intro hcon
          exact ht ((zpow_le_divQ_of_nonneg b a d hb hd c hc0).mp hcon)
        have := lt_of_not_le this
        simpa [sub_add_cancel] using this
  · rw [if_neg hc0]
    push_neg at hc0
    by_cases ht : d ≤ a * b ^ (-c).toNat
    · rw [if_pos ht]
      refine ⟨?_, ?_⟩
      · exact (zpow_le_divQ_of_neg b a d hb ha hd c hc0).mpr ht
      · simpa [hc] using hhigh
    · rw [if_neg ht]
      refine ⟨?_, ?_⟩
      · have : (b : ℚ) ^ (c - 1) < q := by simpa [hc] using hlow
        exact le_of_lt this
      · have : ¬ ((b : ℚ) ^ c ≤ q) := by
          intro hcon
          exact ht ((zpow_le_divQ_of_neg b a d hb ha hd c hc0).mp hcon)
        have := lt_of_not_le this
        simpa [sub_add_cancel] using this

theorem zpow_mul_zpow (x : ℚ) (hx : x ≠ 0) (m n : ℤ) : x ^ m * x ^ n = x ^ (m + n) :=
  (zpow_add₀ hx m n).symm

theorem roundSigQ_of_ne (b p : ℕ) (q : ℚ) (hqne : q ≠ 0) :
    roundSigQ b p q =
      (if 0 ≤ (p : ℤ) - 1 - floorLogQ b q.num.natAbs q.den then
        Rat.divInt ((if q.num < 0 then -1 else 1) *
            ((rdiv (q.num.natAbs * b ^ ((p : ℤ) - 1 - floorLogQ b q.num.natAbs q.den).toNat) q.den : ℕ) : ℤ))
          ((b ^ ((p : ℤ) - 1 - floorLogQ b q.num.natAbs q.den).toNat : ℕ) : ℤ)
      else
        Rat.divInt ((if q.num < 0 then -1 else 1) *
            ((rdiv q.num.natAbs (q.den * b ^ (-((p : ℤ) - 1 - floorLogQ b q.num.natAbs q.den)).toNat) : ℕ) : ℤ) *
          ((b ^ (-((p : ℤ) - 1 - floorLogQ b q.num.natAbs q.den)).toNat : ℕ) : ℤ)) 1) := by
  by_cases hsh : 0 ≤ (p : ℤ) - 1 - floorLogQ b q.num.natAbs q.den
  · rw [roundSigQ, if_neg hqne]
    simp only [if_pos hsh]
  · rw [roundSigQ, if_neg hqne]
    simp only [if_neg hsh]

theorem roundSigQ_eq_self (b p : ℕ) (hb : 2 ≤ b) (hp4 : p ≤ 400)
    (q : ℚ) (m : ℕ) (z : ℤ) (hm0 : 0 < m) (hmp : m < b ^ p)
    (hqv : q = (m : ℚ) * (b : ℚ) ^ z)
    (hna : q.num.natAbs < b ^ 400) (hnd : q.den < b ^ 400) :
    roundSigQ b p q = q := by
  have hbq0 : (0 : ℚ) < (b : ℚ) := by
    have : (0 : ℕ) < b := by omega
    exact_mod_cast this
  have hbne : (b : ℚ) ≠ 0 := ne_of_gt hbq0
  have hbq1 : (1 : ℚ) < (b : ℚ) := by exact_mod_cast hb
  have hq0 : 0 < q := by
    rw [hqv]
    have hmq : (0 : ℚ) < (m : ℚ) := by exact_mod_cast hm0
    positivity
  have hqne : q ≠ 0 := ne_of_gt hq0
  have hnum : 0 < q.num := Rat.num_pos.mpr hq0
  have hnumnot : ¬ q.num < 0 := by omega
  set a := q.num.natAbs with hadef
  set d := q.den with hddef
  have ha0 : 0 < a := by
    have := Int.natAbs_pos.mpr (ne_of_gt hnum)
    omega
  have hd0 : 0 < d := q.pos
  have hacast : ((a : ℕ) : ℚ) = (q.num : ℚ) := by
    have : ((a : ℕ) : ℤ) = q.num := Int.natAbs_of_nonneg (le_of_lt hnum)
    exact_mod_cast this
  have hval : (a : ℚ) / (d : ℚ) = q := by
    rw [hacast]
    exact Rat.num_div_den q
  have hdq0 : (0 : ℚ) < (d : ℚ) := by exact_mod_cast hd0
  have haq : ((a : ℕ) : ℚ) = q * (d : ℚ) := by
    rw [← hval]
    field_simp
  -- the floor logarithm of q
  obtain ⟨he1, he2⟩ := floorLogQ_correct b a d hb ha0 hd0 hna hnd
  rw [hval] at he1 he2
  set e := floorLogQ b a d with hedef
  -- digit count of m
  have hmfuel : m < b ^ 400 :=
    lt_of_lt_of_le hmp (Nat.pow_le_pow_right (by omega) hp4)
  obtain ⟨hm1, hm2⟩ := nlen_bounds b m hb hmfuel hm0
  have hLm1 : 1 ≤ nlen b m := nlen_pos b m hb hmfuel hm0
  set Lm := nlen b m with hLmdef
  have hLmp : Lm ≤ p := by
    by_contra hc
    push_neg at hc
    have : b ^ p ≤ b ^ (Lm - 1) := Nat.pow_le_pow_right (by omega) (by omega)
    omega
  -- sandwich of q in terms of m's digit count
  have hqlow : (b : ℚ) ^ (z + (Lm : ℤ) - 1) ≤ q := by
    have hmono : ((b ^ (Lm - 1) : ℕ) : ℚ) ≤ (m : ℚ) := by exact_mod_cast hm1
    have hzp : (0 : ℚ) < (b : ℚ) ^ z := zpow_pos hbq0 z
    have hstep := mul_le_mul_of_nonneg_right hmono (le_of_lt hzp)
    rw [castPowQ, zpow_mul_zpow _ hbne] at hstep
    rw [hqv]
    have hexp : ((Lm - 1 : ℕ) : ℤ) + z = z + (Lm : ℤ) - 1 := by omega
    rw [hexp] at hstep
    exact hstep
  have hqhigh : q < (b : ℚ) ^ (z + (Lm : ℤ)) := by
    have hmono : (m : ℚ) < ((b ^ Lm : ℕ) : ℚ) := by exact_mod_cast hm2
    have hzp : (0 : ℚ) < (b : ℚ) ^ z := zpow_pos hbq0 z
    have hstep := mul_lt_mul_of_pos_right hmono hzp
    rw [castPowQ, zpow_mul_zpow _ hbne] at hstep
    rw [hqv]
    have hexp : ((Lm : ℕ) : ℤ) + z = z + (Lm : ℤ) := by omega
    rw [hexp] at hstep
    exact hstep
  -- e is determined: e = z + Lm - 1
  have heval : e = z + (Lm : ℤ) - 1 := by
    by_contra hne
    rcases lt_or_gt_of_ne hne with hlt | hgt
    · have hle : (b : ℚ) ^ (e + 1) ≤ (b : ℚ) ^ (z + (Lm : ℤ) - 1) :=
        zpow_le_zpow_right₀ (le_of_lt hbq1) (by omega)
      exact lt_irrefl q (lt_of_lt_of_le he2 (le_trans hle hqlow))
    · have hle : (b : ℚ) ^ (z + (Lm : ℤ)) ≤ (b : ℚ) ^ e :=
        zpow_le_zpow_right₀ (le_of_lt hbq1) (by omega)
      exact lt_irrefl q (lt_of_lt_of_le hqhigh (le_trans hle he1))
  -- the shift
  set sh : ℤ := (p : ℤ) - 1 - e with hshdef
  set U : ℕ := p - Lm with hUdef
  have hU2 : ((U : ℕ) : ℤ) = (p : ℤ) - (Lm : ℤ) := by
    rw [hUdef, Nat.cast_sub hLmp]
  rw [roundSigQ_of_ne b p q hqne]
  rw [← hadef, ← hddef, ← hedef, ← hshdef]
  rw [if_neg hnumnot]
  by_cases hsh : 0 ≤ sh
  · rw [if_pos hsh]
    have hshtn2 : ((sh.toNat : ℕ) : ℤ) = sh := Int.toNat_of_nonneg hsh
    have qb : q * (b : ℚ) ^ sh = (m : ℚ) * (b : ℚ) ^ ((p : ℤ) - (Lm : ℤ)) := by
      rw [hqv, mul_assoc, zpow_mul_zpow _ hbne]
      rw [show z + sh = (p : ℤ) - (Lm : ℤ) by omega]
    have hBpos : 0 < b ^ sh.toNat := Nat.pos_pow_of_pos sh.toNat (by omega)
    have hkey : a * b ^ sh.toNat = d * (m * b ^ U) := by
      have e2 : ((a * b ^ sh.toNat : ℕ) : ℚ) = ((d * (m * b ^ U) : ℕ) : ℚ) := by
        push_cast
        rw [← zpow_natCast (b : ℚ) sh.toNat, ← zpow_natCast (b : ℚ) U, hshtn2, hU2]
        rw [haq]
        rw [show q * (d : ℚ) * (b : ℚ) ^ sh = (d : ℚ) * (q * (b : ℚ) ^ sh) by ring]
        rw [qb]
      exact_mod_cast e2
    have hdvd : d ∣ a * b ^ sh.toNat := ⟨m * b ^ U, hkey⟩
    have hrd : rdiv (a * b ^ sh.toNat) d = m * b ^ U := by
      rw [rdiv_of_dvd _ _ hd0 hdvd, hkey, Nat.mul_div_cancel_left _ hd0]
    rw [hrd, one_mul, Rat.divInt_eq_div]
    have hBneq : (((b ^ sh.toNat : ℕ) : ℤ) : ℚ) ≠ 0 := by
      have : ((b ^ sh.toNat : ℕ) : ℤ) ≠ 0 := by exact_mod_cast ne_of_gt hBpos
      exact_mod_cast this
    rw [div_eq_iff hBneq]
    push_cast
    rw [← zpow_natCast (b : ℚ) sh.toNat, ← zpow_natCast (b : ℚ) U, hshtn2, hU2]
    rw [qb]
  · rw [if_neg hsh]
    push_neg at hsh
    set t : ℕ := (-sh).toNat with htdef
    have ht2 : ((t : ℕ) : ℤ) = -sh := Int.toNat_of_nonneg (by omega)
    have qb : (b : ℚ) ^ ((t : ℕ) : ℤ) * ((m : ℚ) * (b : ℚ) ^ ((U : ℕ) : ℤ)) = q := by
      rw [hqv]
      rw [show (b : ℚ) ^ ((t : ℕ) : ℤ) * ((m : ℚ) * (b : ℚ) ^ ((U : ℕ) : ℤ)) =
        (m : ℚ) * ((b : ℚ) ^ ((t : ℕ) : ℤ) * (b : ℚ) ^ ((U : ℕ) : ℤ)) by ring]
      rw [zpow_mul_zpow _ hbne]
      rw [show ((t : ℕ) : ℤ) + ((U : ℕ) : ℤ) = z by omega]
    have hdbt : 0 < d * b ^ t := by
      have : 0 < b ^ t := Nat.pos_pow_of_pos t (by omega)
      positivity
    have hkey : a = (d * b ^ t) * (m * b ^ U) := by
      have e2 : ((a : ℕ) : ℚ) = (((d * b ^ t) * (m * b ^ U) : ℕ) : ℚ) := by
        push_cast
        rw [← zpow_natCast (b : ℚ) t, ← zpow_natCast (b : ℚ) U]
        rw [haq]
        rw [show (d : ℚ) * (b : ℚ) ^ ((t : ℕ) : ℤ) * ((m : ℚ) * (b : ℚ) ^ ((U : ℕ) : ℤ)) =
          (d : ℚ) * ((b : ℚ) ^ ((t : ℕ) : ℤ) * ((m : ℚ) * (b : ℚ) ^ ((U : ℕ) : ℤ))) by ring]
        rw [qb]
        ring
      exact_mod_cast e2
    have hdvd : (d * b ^ t) ∣ a := ⟨m * b ^ U, hkey⟩
    have hrd : rdiv a (d * b ^ t) = m * b ^ U := by
      rw [rdiv_of_dvd _ _ hdbt hdvd]
      rw [hkey, Nat.mul_div_cancel_left _ hdbt]
    rw [hrd, one_mul, Rat.divInt_one]
    push_cast
    rw [← zpow_natCast (b : ℚ) t, ← zpow_natCast (b : ℚ) U]
    rw [show (m : ℚ) * (b : ℚ) ^ ((U : ℕ) : ℤ) * (b : ℚ) ^ ((t : ℕ) : ℤ) =
      (b : ℚ) ^ ((t : ℕ) : ℤ) * ((m : ℚ) * (b : ℚ) ^ ((U : ℕ) : ℤ)) by ring]
    rw [qb]

theorem ten18_cast : (((10 : ℕ) ^ 18 : ℕ) : ℚ) = (10 : ℚ) ^ ((18 : ℕ) : ℤ) :=
  castPowQ 10 18

theorem divInt_ten18_eq (w : ℕ) :
    Rat.divInt (w : ℤ) (((10 : ℕ) ^ 18 : ℕ) : ℤ) = (w : ℚ) * (10 : ℚ) ^ (-18 : ℤ) := by
  rw [Rat.divInt_eq_div]
  rw [show (((((10 : ℕ) ^ 18 : ℕ) : ℤ)) : ℚ) = ((((10 : ℕ) ^ 18 : ℕ)) : ℚ) by push_cast; ring]
  rw [ten18_cast]
  rw [div_eq_mul_inv, ← zpow_neg]
  norm_num

theorem wei_ether_roundtrip (w : ℕ) (hw : w < 10 ^ 28) :
    ether_to_wei (wei_to_ether w) = (w : ℤ) := by
  by_cases hw0 : w = 0
  · subst hw0
    decide
  · have hwpos : 0 < w := Nat.pos_of_ne_zero hw0
    have h18ne : (((10 : ℕ) ^ 18 : ℕ) : ℤ) ≠ 0 := by positivity
    set q : ℚ := Rat.divInt (w : ℤ) (((10 : ℕ) ^ 18 : ℕ) : ℤ) with hqdef
    have hq_eq : q = (w : ℚ) * (10 : ℚ) ^ (-18 : ℤ) := divInt_ten18_eq w
    -- numerator and denominator bounds for the fuel
    have hden_dvd : ((q.den : ℕ) : ℤ) ∣ (((10 : ℕ) ^ 18 : ℕ) : ℤ) := Rat.den_dvd _ _
    have hden_le : q.den ≤ 10 ^ 18 := by
      have := Int.natCast_dvd_natCast.mp hden_dvd
      exact Nat.le_of_dvd (by positivity) this
    have hnum_dvd : q.num ∣ (w : ℤ) := Rat.num_dvd _ h18ne
    have hnum_le : q.num.natAbs ≤ w := by
      have hd : q.num.natAbs ∣ w := by
        have := Int.natAbs_dvd_natAbs.mpr hnum_dvd
        simpa using this
      exact Nat.le_of_dvd hwpos hd
    have hna : q.num.natAbs < 10 ^ 400 := by
      calc q.num.natAbs ≤ w := hnum_le
      _ < 10 ^ 28 := hw
      _ < 10 ^ 400 := Nat.pow_lt_pow_right (by omega) (by omega)
    have hnd : q.den < 10 ^ 400 := by
      calc q.den ≤ 10 ^ 18 := hden_le
      _ < 10 ^ 400 := Nat.pow_lt_pow_right (by omega) (by omega)
    -- first rounding is exact
    have hfirst : wei_to_ether w = q := by
      rw [wei_to_ether, ← hqdef]
      exact roundSigQ_eq_self 10 28 (by omega) (by omega) q w (-18) hwpos hw hq_eq hna hnd
    rw [hfirst, ether_to_wei]
    -- the product written on the numerator is exactly w
    have hinner : Rat.divInt (q.num * (((10 : ℕ) ^ 18 : ℕ) : ℤ)) ((q.den : ℕ) : ℤ) = (w : ℚ) := by
      rw [Rat.divInt_eq_div, Int.cast_mul, Int.cast_natCast, Int.cast_natCast]
      rw [ten18_cast]
      rw [show ((q.num : ℚ) * ((10 : ℚ) ^ ((18 : ℕ) : ℤ))) / (q.den : ℚ) =
        ((q.num : ℚ) / (q.den : ℚ)) * ((10 : ℚ) ^ ((18 : ℕ) : ℤ)) by ring]
      rw [Rat.num_div_den]
      rw [hq_eq, mul_assoc]
      rw [zpow_mul_zpow (10 : ℚ) (by norm_num) (-18) ((18 : ℕ) : ℤ)]
      norm_num
    rw [hinner]
    -- second rounding is exact as well
    have hsecond : roundSigQ 10 28 ((w : ℚ)) = (w : ℚ) := by
      apply roundSigQ_eq_self 10 28 (by omega) (by omega) ((w : ℚ)) w 0 hwpos hw
      · rw [zpow_zero, mul_one]
      · rw [Rat.num_natCast, Int.natAbs_ofNat]
        exact lt_trans hw (Nat.pow_lt_pow_right (by omega) (by omega))
      · rw [Rat.den_natCast]
        norm_num
    rw [hsecond]
    -- final truncation of an integer value
    rw [ratTrunc, Rat.num_natCast, Rat.den_natCast, Int.natAbs_ofNat, Nat.div_one]
    rw [Int.sign_eq_one_of_pos (by exact_mod_cast hwpos), one_mul]

theorem normalized_exact_int (v : ℕ) (hv : v < 2 ^ 53) :
    Amount.normalized ⟨(v : ℤ), 0⟩ = (v : ℚ) := by
  by_cases hv0 : v = 0
  · subst hv0
    decide
  · have hvpos : 0 < v := Nat.pos_of_ne_zero hv0
    rw [Amount.normalized, pyFloatDiv]
    rw [show ((10 : ℕ) ^ (0 : ℕ) : ℕ) = 1 by norm_num]
    rw [show ((1 : ℕ) : ℤ) = 1 by norm_num, Rat.divInt_one]
    apply roundSigQ_eq_self 2 53 (by omega) (by omega) ((v : ℚ)) v 0 hvpos hv
    · rw [zpow_zero, mul_one]
    · rw [Rat.num_natCast, Int.natAbs_ofNat]
      exact lt_trans hv (Nat.pow_lt_pow_right (by omega) (by omega))
    · rw [Rat.den_natCast]
      norm_num

/-- Unfolding equation of the polling loop. -/
theorem waitLoop_unfold (poll : ℕ → Option TransactionReceipt) (txStr : String)
    (timeout k : ℕ) :
    waitLoop poll txStr timeout k =
      match poll k with
      | some r => (.ok r, k + 1)
      | none =>
        if timeout < 2 * k then
          (.error (.transactionFailed (msgTimedOutA ++ txStr ++ msgTimedOutB)), k + 1)
        else waitLoop poll txStr timeout (k + 1) := by
  rw [waitLoop]
  simp only [dite_eq_ite]

/-- When no receipt is available at any poll up to the deadline, the loop
started at `k` raises the timeout error after poll number `timeout / 2 + 1`
(elapsed time `2 * (timeout / 2 + 1)`, the first multiple of the 2-second
interval strictly above `timeout`), having performed `timeout / 2 + 2`
polls in total. -/
theorem waitLoop_times_out (poll : ℕ → Option TransactionReceipt) (txStr : String)
    (timeout : ℕ)
    (hnone : ∀ i, i ≤ timeout / 2 + 1 → poll i = none) :
    ∀ n k, timeout / 2 + 1 - k = n → k ≤ timeout / 2 + 1 →
      waitLoop poll txStr timeout k =
        (.error (.transactionFailed (msgTimedOutA ++ txStr ++ msgTimedOutB)),
          timeout / 2 + 2) := by
  intro n
  induction n with
  | zero =>
    intro k hkn hk
    rw [waitLoop_unfold, hnone k hk]
    rw [if_pos (by omega : timeout < 2 * k)]
    rw [show k + 1 = timeout / 2 + 2 by omega]
  | succ n ih =>
    intro k hkn hk
    rw [waitLoop_unfold, hnone k (by omega)]
    rw [if_neg (by omega : ¬ timeout < 2 * k)]
    exact ih (k + 1) (by omega) (by omega)

/-- A receipt observed at poll `j` (no earlier poll succeeding, `j` within
the deadline) is returned, after `j + 1` polls. -/
theorem waitLoop_finds (poll : ℕ → Option TransactionReceipt) (txStr : String)
    (timeout j : ℕ) (r : TransactionReceipt)
    (hj : j ≤ timeout / 2 + 1) (hbefore : ∀ i, i < j → poll i = none)
    (hr : poll j = some r) :
    ∀ n k, j - k = n → k ≤ j →
      waitLoop poll txStr timeout k = (.ok r, j + 1) := by
  intro n
  induction n with
  | zero =>
    intro k hkn hk
    have hkj : k = j := by omega
    subst hkj
    rw [waitLoop_unfold, hr]
  | succ n ih =>
    intro k hkn hk
    rw [waitLoop_unfold, hbefore k (by omega)]
    rw [if_neg (by omega : ¬ timeout < 2 * k)]
    exact ih (k + 1) (by omega) (by omega)

/-- Unfolding of the `Except` monad bind on a success value. -/
theorem except_bind_ok {α β ε : Type} (a : α) (f : α → Except ε β) :
    (Except.ok a >>= f : Except ε β) = f a := rfl

/-- Unfolding of the `Except` monad bind on an error value. -/
theorem except_bind_error {α β ε : Type} (e : ε) (f : α → Except ε β) :
    ((Except.error e : Except ε α) >>= f : Except ε β) = Except.error e := rfl

/-- Field contents of a successfully built receipt. -/
theorem buildReceipt_ok (tx : TransactionHash) (raw : RawReceipt)
    (r : TransactionReceipt) (h : buildReceipt tx raw = .ok r) :
    r.transaction_hash = tx ∧ r.block_number = raw.blockNumber ∧
    r.gas_used = raw.gasUsed ∧
    r.status = (if raw.status = 1 then TransactionStatus.confirmed
      else TransactionStatus.failed) ∧
    r.logs = raw.logs := by
  rw [buildReceipt] at h
  cases hcase : raw.contractAddress with
  | none =>
    simp only [hcase, except_bind_ok] at h
    cases h
    exact ⟨rfl, rfl, rfl, rfl, rfl⟩
  | some s =>
    by_cases hs : s = emptyStr
    · simp only [hcase, if_pos hs, except_bind_ok] at h
      cases h
      exact ⟨rfl, rfl, rfl, rfl, rfl⟩
    · cases hmk : Except.map some (mkContractAddress s) with
      | ok ca =>
        simp only [hcase, if_neg hs, hmk, except_bind_ok] at h
        cases h
        exact ⟨rfl, rfl, rfl, rfl, rfl⟩
      | error e2 =>
        simp only [hcase, if_neg hs, hmk, except_bind_error] at h
        cases h

/-! ## Concrete data for the claims -/

def sampleAddr : String := "0xaaaaaaaaaaaaaaaaaaaaaaaaaaaaaaaaaaaaaaaa"

def sampleHash : String := "0xaaaaaaaaaaaaaaaaaaaaaaaaaaaaaaaaaaaaaaaaaaaaaaaaaaaaaaaaaaaaaaaa"

def mixedAddr : String := "0xAbCdEfAbCdEfAbCdEfAbCdEfAbCdEfAbCdEfAbCd"

def lowerAddr : String := "0xabcdefabcdefabcdefabcdefabcdefabcdefabcd"

def zAddr : String := "0xzzzzzzzzzzzzzzzzzzzzzzzzzzzzzzzzzzzzzzzz"

def zHash : String := "0xzzzzzzzzzzzzzzzzzzzzzzzzzzzzzzzzzzzzzzzzzzzzzzzzzzzzzzzzzzzzzzzz"

def labelEvent : String := "event"

def labelTransfer : String := "Transfer"

def labelTokenId : String := "tokenId"

def tokenSeven : String := "7"

def tokenNine : String := "9"

def rejectionMsg : String := "nonce too low"

def revertMsg : String := "execution reverted"

def rpcErrMsg : String := "connection reset"

/-- A client state as left by a successful `connect` to the local network. -/
def connectedState : ClientState := ⟨some (), some .localhost, some 31337⟩

/-- A confirmed receipt whose logs carry a Transfer event naming token id 7. -/
def receiptTok7 : TransactionReceipt :=
  ⟨⟨sampleHash⟩, 3, 21000, .confirmed, none,
    [[(labelEvent, labelTransfer), (labelTokenId, tokenSeven)]]⟩

/-- The same receipt with token id 9 in the logs. -/
def receiptTok9 : TransactionReceipt :=
  ⟨⟨sampleHash⟩, 3, 21000, .confirmed, none,
    [[(labelEvent, labelTransfer), (labelTokenId, tokenNine)]]⟩

/-! ## Claim C1 -/

/-- C1 (code bug in the source): `mint_nft` is claimed to return a token id
extracted from the emitted log entries of the receipt, but the source
hard-codes `token_id = 1` (its own comment: "This would be extracted from
the event logs") and ignores the receipt it just awaited.  Two successful
mint runs whose confirmed receipts carry log entries naming token id 7
respectively 9 both return token id 1.  (The transaction-hash half of the
claim does hold: the returned hash is the broadcast one.) -/
theorem mint_nft_hardcoded_token_id :
    mint_nft connectedState true (.ok ()) (.ok 10) (.ok 0) (.ok 1) (.ok emptyStr)
        (.ok sampleHash) (fun _ => some receiptTok7) = .ok (1, ⟨sampleHash⟩) ∧
    mint_nft connectedState true (.ok ()) (.ok 10) (.ok 0) (.ok 1) (.ok emptyStr)
        (.ok sampleHash) (fun _ => some receiptTok9) = .ok (1, ⟨sampleHash⟩) ∧
    receiptTok7.logs = [[(labelEvent, labelTransfer), (labelTokenId, tokenSeven)]] ∧
    receiptTok9.logs = [[(labelEvent, labelTransfer), (labelTokenId, tokenNine)]] := by
  refine ⟨?_, ?_, rfl, rfl⟩ <;>
  · rw [mint_nft]
    simp [wait_for_transaction, waitLoop_unfold, loadContractAbi, connectedState,
      mkTransactionHash]
    decide

/-! ## Claim C2 -/

/-- C2 counterexample: with no receipt ever becoming available (timeout 0
for evaluation), `wait_for_transaction` raises `TransactionFailedError`,
the very exception class this code base uses for transaction failure
(compare `send_transaction`) — not a distinct confirmation-timeout error
kind, which does not exist in the source's taxonomy. -/
theorem wait_timeout_same_error_kind :
    (wait_for_transaction (fun _ => none) sampleHash 0).1 =
      .error (.transactionFailed (msgTimedOutA ++ sampleHash ++ msgTimedOutB)) ∧
    (PyError.transactionFailed (msgTimedOutA ++ sampleHash ++ msgTimedOutB)).kind =
      (PyError.transactionFailed (msgTxFailedPrefix ++ revertMsg)).kind := by
  constructor
  · have h := waitLoop_times_out (fun _ => none) sampleHash 0 (fun i _ => rfl)
      1 0 (by omega) (by omega)
    rw [wait_for_transaction, h]
  · rfl

/-- C2 (amended): for a hash with no receipt ever available,
`wait_for_transaction` raises `TransactionFailedError` (the same error
class as on-chain transaction failure, with a "timed out" message — not a
distinct error kind), and it does so only once the elapsed time exceeds
the configured timeout (polling every 2 time units, so after
`timeout / 2 + 2` polls, at elapsed time `2 * (timeout / 2 + 1) > timeout`),
not earlier; a receipt observed at any earlier poll is returned instead. -/
theorem wait_for_transaction_amended (poll : ℕ → Option TransactionReceipt)
    (txStr : String) (timeout : ℕ) :
    ((∀ i, i ≤ timeout / 2 + 1 → poll i = none) →
      wait_for_transaction poll txStr timeout =
        (.error (.transactionFailed (msgTimedOutA ++ txStr ++ msgTimedOutB)),
          timeout / 2 + 2)) ∧
    (∀ j r, j ≤ timeout / 2 + 1 → (∀ i, i < j → poll i = none) → poll j = some r →
      wait_for_transaction poll txStr timeout = (.ok r, j + 1)) := by
  constructor
  · intro hnone
    rw [wait_for_transaction]
    exact waitLoop_times_out poll txStr timeout hnone (timeout / 2 + 1) 0 (by omega) (by omega)
  · intro j r hj hbefore hr
    rw [wait_for_transaction]
    exact waitLoop_finds poll txStr timeout j r hj hbefore hr j 0 (by omega) (by omega)

/-- C2 witness: the amended theorem at the default timeout 300 with a
never-confirming hash: the error is raised after 152 polls (elapsed 302). -/
theorem wait_for_transaction_amended_witness :
    wait_for_transaction (fun _ => none) sampleAddr 300 =
      (.error (.transactionFailed (msgTimedOutA ++ sampleAddr ++ msgTimedOutB)), 152) :=
  (wait_for_transaction_amended (fun _ => none) sampleAddr 300).1 (fun i _ => rfl)

/-! ## Claim C3 -/

/-- C3 counterexample: the round trip is not exact for every `w` — Python's
`decimal` default context has 28 significant digits, so
`wei_to_ether (10 ^ 29 + 1)` rounds to `1E+11` and converting back yields
`10 ^ 29`, not `10 ^ 29 + 1`. -/
theorem wei_ether_roundtrip_counterexample :
    ether_to_wei (wei_to_ether (10 ^ 29 + 1)) = 10 ^ 29 ∧
    (10 ^ 29 : ℤ) ≠ ((10 ^ 29 + 1 : ℕ) : ℤ) := by
  constructor
  · decide
  · decide

/-- C3 (amended): `ether_to_wei (wei_to_ether w) = w` holds for every `w`
whose decimal representation fits in the context precision — in particular
for all `w < 10 ^ 28` — but not at every magnitude: both conversions round
to 28 significant digits (see the counterexample at `10 ^ 29 + 1`). -/
theorem wei_ether_roundtrip_amended (w : ℕ) (hw : w < 10 ^ 28) :
    ether_to_wei (wei_to_ether w) = (w : ℤ) :=
  wei_ether_roundtrip w hw

/-- C3 witness: the amended round trip at `w = 5`. -/
theorem wei_ether_roundtrip_amended_witness :
    (5 : ℕ) < 10 ^ 28 ∧ ether_to_wei (wei_to_ether 5) = ((5 : ℕ) : ℤ) :=
  ⟨by decide, wei_ether_roundtrip_amended 5 (by decide)⟩

/-! ## Claim C4 -/

/-- C4 counterexample: a node rejection at broadcast ("nonce too low")
surfaces as `TransactionFailedError` — the error class named for on-chain
transaction failure — because `send_transaction` wraps every exception of
its `try` block in `TransactionFailedError`.  No `SubmissionRejected` kind
exists in the source's taxonomy, so the two situations are not
distinguishable by error type. -/
theorem send_rejection_same_error_kind :
    send_transaction connectedState true ⟨sampleAddr⟩ 1 none (some 7) (.ok 5) (.ok 7)
        (fun _ => .ok emptyStr) (fun _ => .error (.rpc rejectionMsg)) =
      .error (.transactionFailed (msgTxFailedPrefix ++ rejectionMsg)) ∧
    (PyError.transactionFailed (msgTxFailedPrefix ++ rejectionMsg)).kind =
      PyErrorKind.transactionFailed := by
  exact ⟨by decide, rfl⟩

/-- C4 (amended): when the node rejects the raw transaction at broadcast,
`send_transaction` fails with `TransactionFailedError` carrying the node's
message — the same error class used for on-chain failure, not a separate
`SubmissionRejected` kind. -/
theorem send_transaction_rejection_amended (st : ClientState) (probe : Bool)
    (toA : WalletAddress) (value : ℚ) (gasLimit : Option ℕ) (g n : ℕ)
    (gasPriceR : Except PyError ℕ)
    (signR : TxParams → Except PyError String) (raw : String)
    (broadcastR : String → Except PyError String) (e : PyError)
    (hc : is_connected st probe = true)
    (hs : ∀ tx, signR tx = .ok raw)
    (hbr : broadcastR raw = .error e) :
    send_transaction st probe toA value gasLimit (some g) (.ok n) gasPriceR signR broadcastR =
      .error (.transactionFailed (msgTxFailedPrefix ++ e.msg)) := by
  rw [send_transaction.eq_def, if_neg (by simp [hc])]
  simp only [hs, hbr, except_bind_ok, except_bind_error]

/-- C4 witness: the amended statement at a concrete rejection. -/
theorem send_transaction_rejection_amended_witness :
    send_transaction connectedState true ⟨sampleAddr⟩ 1 none (some 7) (.ok 5) (.ok 7)
        (fun _ => .ok sampleHash) (fun _ => .error (.rpc rejectionMsg)) =
      .error (.transactionFailed (msgTxFailedPrefix ++ (PyError.rpc rejectionMsg).msg)) :=
  send_transaction_rejection_amended connectedState true ⟨sampleAddr⟩ 1 none 7 5 (.ok 7)
    (fun _ => .ok sampleHash) sampleHash (fun _ => .error (.rpc rejectionMsg))
    (.rpc rejectionMsg) rfl (fun _ => rfl) rfl

/-! ## Claim C5 -/

/-- C5 (code bug in the source): every chain-facing operation guards with
`is_connected` and fails fast with `NetworkNotConnectedError` — except
`get_token_balance`, which omits the guard: on a never-connected client it
raises `AttributeError` (dereferencing `self.w3.eth` with `w3 = None`)
when the ERC20 ABI file is present, or `Web3ClientError` when it is not;
neither is the `NotConnected` error the claim requires. -/
theorem get_token_balance_missing_guard :
    get_token_balance newClientState true (.ok 0) (.ok 18) =
      .error (.attributeError msgNoneTypeEth) ∧
    get_token_balance newClientState false (.ok 0) (.ok 18) =
      .error (.web3Client (msgAbiNotFound ++ erc20Name ++ abiSuffix)) ∧
    (PyError.attributeError msgNoneTypeEth).kind ≠ PyErrorKind.notConnected ∧
    (PyError.web3Client (msgAbiNotFound ++ erc20Name ++ abiSuffix)).kind ≠
      PyErrorKind.notConnected ∧
    get_network_info newClientState true (.ok (0, 0)) (.ok 0) =
      .error (.notConnected msgNotConnected) ∧
    get_balance newClientState true (.ok 0) = .error (.notConnected msgNotConnected) ∧
    estimate_gas newClientState true (.ok 0) (.ok 0) =
      .error (.notConnected msgNotConnected) ∧
    send_transaction newClientState true ⟨sampleAddr⟩ 0 none none (.ok 0) (.ok 0)
        (fun _ => .ok emptyStr) (fun _ => .ok sampleHash) =
      .error (.notConnected msgNotConnected) ∧
    get_transaction_receipt newClientState true ⟨sampleHash⟩ (.error (.rpc rpcErrMsg)) =
      .error (.notConnected msgNotConnected) := by
  decide

/-! ## Claim C6 -/

/-- C6 counterexample: constructing a `WalletAddress` from a mixed-case and
from the corresponding lower-case textual form yields objects with
*different* stored values — construction stores the string verbatim, and
only `__str__` lower-cases (for `WalletAddress`; `ContractAddress.__str__`
does not even do that). -/
theorem address_not_canonicalized :
    mkWalletAddress mixedAddr = .ok ⟨mixedAddr⟩ ∧
    mkWalletAddress lowerAddr = .ok ⟨lowerAddr⟩ ∧
    strLower mixedAddr = lowerAddr ∧
    mixedAddr ≠ lowerAddr ∧
    mkContractAddress mixedAddr = .ok ⟨mixedAddr⟩ ∧
    ContractAddress.toText ⟨mixedAddr⟩ = mixedAddr := by
  decide

/-- C6 (amended): the stored value of an accepted wallet / contract /
domain address is the input string unchanged (no lower-casing at
construction, so equality of the objects is case-sensitive); only the
printed form (`__str__`) of `WalletAddress` and `Address` is lower-cased,
while `ContractAddress` prints the stored value as is. -/
theorem address_storage_amended (s : String) :
    (∀ w, mkWalletAddress s = .ok w →
      w.value = s ∧ WalletAddress.toText w = strLower s) ∧
    (∀ c, mkContractAddress s = .ok c →
      c.value = s ∧ ContractAddress.toText c = s) ∧
    (∀ a, mkAddress s = .ok a →
      a.value = s ∧ Address.toText a = strLower s) := by
  refine ⟨?_, ?_, ?_⟩
  · intro w hw
    rw [mkWalletAddress] at hw
    split at hw
    · cases hw
      exact ⟨rfl, rfl⟩
    · cases hw
  · intro c hc
    rw [mkContractAddress] at hc
    split at hc
    · cases hc
      exact ⟨rfl, rfl⟩
    · cases hc
  · intro a ha
    rw [mkAddress] at ha
    split at ha
    · cases ha
      exact ⟨rfl, rfl⟩
    · cases ha

/-- C6 witness: the amended statement at the mixed-case sample address. -/
theorem address_storage_amended_witness :
    WalletAddress.value ⟨mixedAddr⟩ = mixedAddr ∧
    WalletAddress.toText ⟨mixedAddr⟩ = strLower mixedAddr :=
  (address_storage_amended mixedAddr).1 ⟨mixedAddr⟩ (by decide)

/-! ## Claim C7 -/

/-- C7 counterexample: validation does not check hex digits — a 42-character
`0x`-prefixed string of `z`s is accepted as a wallet address, and a
66-character one as a transaction hash, although neither satisfies the
spec's hex-string well-formedness predicate. -/
theorem non_hex_accepted :
    mkWalletAddress zAddr = .ok ⟨zAddr⟩ ∧
    specHexString 42 zAddr = false ∧
    mkTransactionHash zHash = .ok ⟨zHash⟩ ∧
    specHexString 66 zHash = false := by
  decide

/-- C7 (amended): construction of the address value objects fails exactly
when the string does not start with `0x` or its character count is not 42
(66 for `TransactionHash`); hex-ness of the remaining characters is not
checked, so right-length strings with non-hex characters are accepted. -/
theorem validation_prefix_length_only (s : String) :
    ((mkWalletAddress s).isOk = true ↔ (startsWith0x s = true ∧ strLen s = 42)) ∧
    ((mkContractAddress s).isOk = true ↔ (startsWith0x s = true ∧ strLen s = 42)) ∧
    ((mkTransactionHash s).isOk = true ↔ (startsWith0x s = true ∧ strLen s = 66)) := by
  refine ⟨?_, ?_, ?_⟩
  · rw [mkWalletAddress]
    by_cases h : startsWith0x s = true ∧ strLen s = 42
    · rw [if_pos h]
      simpa [Except.isOk, Except.toBool] using h
    · rw [if_neg h]
      simpa [Except.isOk, Except.toBool] using h
  · rw [mkContractAddress]
    by_cases h : startsWith0x s = true ∧ strLen s = 42
    · rw [if_pos h]
      simpa [Except.isOk, Except.toBool] using h
    · rw [if_neg h]
      simpa [Except.isOk, Except.toBool] using h
  · rw [mkTransactionHash]
    by_cases h : startsWith0x s = true ∧ strLen s = 66
    · rw [if_pos h]
      simpa [Except.isOk, Except.toBool] using h
    · rw [if_neg h]
      simpa [Except.isOk, Except.toBool] using h

/-- C7 witness: the amended characterization applied to a valid sample. -/
theorem validation_prefix_length_only_witness :
    (mkWalletAddress sampleAddr).isOk = true :=
  (validation_prefix_length_only sampleAddr).1.mpr (by decide)

/-! ## Claim C8 -/

/-- C8 counterexample: `Amount.normalized` divides in binary floating
point (`int / int` in CPython is correctly-rounded IEEE-754 binary64), so
precision is lost: the distinct amounts `10^18 + 1` and `10^18` (18
decimals) both normalize to exactly `1.0`, while the exact quotient
`(10^18 + 1) / 10^18` is not `1`. -/
theorem normalized_float_counterexample :
    mkAmount ((10 : ℤ) ^ 18 + 1) 18 = .ok ⟨(10 : ℤ) ^ 18 + 1, 18⟩ ∧
    mkAmount ((10 : ℤ) ^ 18) 18 = .ok ⟨(10 : ℤ) ^ 18, 18⟩ ∧
    Amount.normalized ⟨(10 : ℤ) ^ 18 + 1, 18⟩ = 1 ∧
    Amount.normalized ⟨(10 : ℤ) ^ 18, 18⟩ = 1 ∧
    Rat.divInt ((10 : ℤ) ^ 18 + 1) ((10 : ℤ) ^ 18) ≠ 1 := by
  decide

/-- C8 (amended): the value of an `Amount` is ≥ 0 by construction, but
`normalized` is computed in binary floating point — it is the IEEE-754
binary64 (53-bit, round-half-even) approximation of
`value / 10 ^ decimals`, not an exact fixed-point quantity, and loses
precision in general (see the counterexample); it is exact e.g. for
integral amounts (`decimals = 0`) whose value fits in 53 bits. -/
theorem amount_normalized_amended :
    (∀ (v : ℤ) (d : ℕ) (a : Amount), mkAmount v d = .ok a → 0 ≤ a.value) ∧
    (∀ v : ℕ, v < 2 ^ 53 → Amount.normalized ⟨(v : ℤ), 0⟩ = (v : ℚ)) := by
  constructor
  · intro v d a h
    rw [mkAmount] at h
    split at h
    · cases h
    · cases h
      simp only []
      omega
  · exact normalized_exact_int

/-- C8 witness: the amended exactness statement at value 3. -/
theorem amount_normalized_amended_witness :
    (3 : ℕ) < 2 ^ 53 ∧ Amount.normalized ⟨((3 : ℕ) : ℤ), 0⟩ = ((3 : ℕ) : ℚ) :=
  ⟨by decide, amount_normalized_amended.2 3 (by decide)⟩

/-! ## Claim C9 -/

/-- C9 (confirmed): once connected, `get_transaction_receipt` maps every
exception of the lookup-and-build block to the regular result `None` — a
node/RPC error (`lookup` failing) and a malformed receipt field
(`buildReceipt` failing, e.g. an invalid contract-address string) are
indistinguishable from a missing receipt; and whenever it returns a
receipt, the lookup succeeded and the receipt carries status `CONFIRMED`
exactly when the on-chain status equals 1, `FAILED` otherwise, with the
raw block number, gas used and logs. -/
theorem get_transaction_receipt_spec (st : ClientState) (probe : Bool)
    (tx : TransactionHash) (lookup : Except PyError RawReceipt)
    (hc : is_connected st probe = true) :
    (∀ e, lookup = .error e → get_transaction_receipt st probe tx lookup = .ok none) ∧
    (∀ raw e, lookup = .ok raw → buildReceipt tx raw = .error e →
      get_transaction_receipt st probe tx lookup = .ok none) ∧
    (∀ r, get_transaction_receipt st probe tx lookup = .ok (some r) →
      ∃ raw, lookup = .ok raw ∧
        r.status = (if raw.status = 1 then TransactionStatus.confirmed
          else TransactionStatus.failed) ∧
        r.transaction_hash = tx ∧ r.block_number = raw.blockNumber ∧
        r.gas_used = raw.gasUsed ∧ r.logs = raw.logs) := by
  refine ⟨?_, ?_, ?_⟩
  · intro e he
    rw [get_transaction_receipt, if_neg (by simp [hc]), he]
    rfl
  · intro raw e hraw hbuild
    rw [get_transaction_receipt, if_neg (by simp [hc]), hraw]
    simp only [Except.bind, hbuild]
  · intro r hr
    rw [get_transaction_receipt, if_neg (by simp [hc])] at hr
    cases hlk : lookup with
    | error e =>
      rw [hlk] at hr
      simp [Except.bind] at hr
    | ok raw =>
      rw [hlk] at hr
      simp only [Except.bind] at hr
      cases hb : buildReceipt tx raw with
      | error e =>
        rw [hb] at hr
        simp at hr
      | ok r2 =>
        rw [hb] at hr
        cases hr
        obtain ⟨h1, h2, h3, h4, h5⟩ := buildReceipt_ok tx raw _ hb
        exact ⟨raw, rfl, h4, h1, h2, h3, h5⟩

/-- C9 witness: a lookup that raises is observed as `None`. -/
theorem get_transaction_receipt_spec_witness :
    get_transaction_receipt connectedState true ⟨sampleHash⟩ (.error (.rpc rpcErrMsg)) =
      .ok none :=
  (get_transaction_receipt_spec connectedState true ⟨sampleHash⟩
    (.error (.rpc rpcErrMsg)) rfl).1 (.rpc rpcErrMsg) rfl

/-! ## Claim C10 -/

/-- C10 (confirmed): `connect` is total (the catch-all `except` turns every
failure — unknown network name, provider construction failure, failed
liveness probe — into the return value `False`); it returns `True` having
set `self.network` and `self.chain_id` to the selected configuration, and
on the `False` path those two fields keep their prior values (only the
`w3` provider field may have been clobbered, which the claim does not
constrain). -/
theorem connect_state_spec (st : ClientState) (apiKey : String)
    (net : Option NetworkType) (probe : Bool) :
    ((connect st apiKey net probe).1 = true →
      ∃ n, net = some n ∧
        (connect st apiKey net probe).2.network = some n ∧
        (connect st apiKey net probe).2.chainId =
          some ((network_configs apiKey n).chainId)) ∧
    ((connect st apiKey net probe).1 = false →
      (connect st apiKey net probe).2.network = st.network ∧
      (connect st apiKey net probe).2.chainId = st.chainId) := by
  cases net with
  | none => simp [connect]
  | some n =>
    cases probe with
    | false => simp [connect]
    | true => simp [connect]

/-- C10 witness: a successful connect to the local network sets the fields
to the selected configuration. -/
theorem connect_state_spec_witness :
    ∃ n, (some NetworkType.localhost = some n) ∧
      (connect newClientState emptyStr (some .localhost) true).2.network = some n ∧
      (connect newClientState emptyStr (some .localhost) true).2.chainId =
        some ((network_configs emptyStr n).chainId) :=
  (connect_state_spec newClientState emptyStr (some .localhost) true).1 rfl

end Web3Model
